import Mathlib

/-!
# URL parameter parser and payment orchestrator

A shallow embedding of `src/utils/urlParser.js` and `src/utils/paymentService.js`.

The browser primitives the code calls (`new URL`, `URLSearchParams`, `fetch`,
`new Date().toISOString()`) are not part of the repository: they are taken as
parameters.  What the repository's own code does with them is embedded as
executable definitions, including the JavaScript semantics it relies on:
truthiness, property lookup along the prototype chain, `typeof`, `trim`,
default parameters, `try`/`catch` and promise settlement.
-/

set_option autoImplicit false

namespace PaymentApp

/-! ## JavaScript values -/

/-- A thrown JavaScript error: `error.name` and `error.message`. -/
structure JSError where
  name : String
  message : String
  deriving DecidableEq, Repr

/-- The values other than arrays, `undefined` and `null` that can be read from
the `params` object of `parseQuery`: strings, the array `length`, and the
built-in objects reached through the prototype chain. -/
inductive Atom where
  /-- A string. -/
  | str (s : String)
  /-- A number (only array lengths occur). -/
  | num (n : Nat)
  /-- The object `Object.prototype` itself. -/
  | objectPrototype
  /-- The value of `Object.prototype[name]`, a built-in function. -/
  | objectMember (name : String)
  /-- The value of `Array.prototype[name]`, a built-in function. -/
  | arrayMember (name : String)
  deriving DecidableEq, Repr

/-- A JavaScript value. -/
inductive Value where
  | undefined
  | null
  | atom (a : Atom)
  | array (xs : List Atom)
  deriving DecidableEq, Repr

/-- A string as a value. -/
abbrev Value.str (s : String) : Value := .atom (.str s)

/-- Truthiness of an atom: the empty string and `0` are falsy, objects and
functions are truthy. -/
def Atom.truthy : Atom → Bool
  | .str s => s != ""
  | .num n => n != 0
  | .objectPrototype => true
  | .objectMember _ => true
  | .arrayMember _ => true

/-- JavaScript `ToBoolean`. -/
def Value.truthy : Value → Bool
  | .undefined => false
  | .null => false
  | .atom a => a.truthy
  | .array _ => true

/-- The string-keyed properties of `Object.prototype` (ECMAScript, with the
Annex B accessors every browser has). -/
def objectPrototypeKeys : List String :=
  ["constructor", "hasOwnProperty", "isPrototypeOf", "propertyIsEnumerable",
   "toLocaleString", "toString", "valueOf", "__proto__",
   "__defineGetter__", "__defineSetter__", "__lookupGetter__", "__lookupSetter__"]

/-- The string-keyed methods of `Array.prototype` (ECMAScript 2023). -/
def arrayPrototypeKeys : List String :=
  ["at", "concat", "constructor", "copyWithin", "entries", "every", "fill", "filter",
   "find", "findIndex", "findLast", "findLastIndex", "flat", "flatMap", "forEach",
   "includes", "indexOf", "join", "keys", "lastIndexOf", "map", "pop", "push",
   "reduce", "reduceRight", "reverse", "shift", "slice", "some", "sort", "splice",
   "toLocaleString", "toReversed", "toSorted", "toSpliced", "toString", "unshift",
   "values", "with"]

/-! ## Property lists -/

/-- Own properties of an object, in creation order; keys are unique. -/
abbrev Props (α : Type) := List (String × α)

/-- Own-property lookup. -/
def Props.get? {α : Type} : Props α → String → Option α
  | [], _ => none
  | (k, v) :: rest, key => if k = key then some v else Props.get? rest key

/-- Own-property write: overwrite in place, or create at the end. -/
def Props.put {α : Type} : Props α → String → α → Props α
  | [], key, v => [(key, v)]
  | (k, w) :: rest, key, v =>
    if k = key then (k, v) :: rest else (k, w) :: Props.put rest key v

/-- The own keys, as `Object.keys` lists them. -/
def Props.keys {α : Type} (ps : Props α) : List String := ps.map Prod.fst

/-! ## The `params` object -/

/-- The prototype of the `params` object: `Object.prototype` as created by
`{}`, or an array once an assignment to `__proto__` has replaced it (the array's
own prototype is `Array.prototype`). -/
inductive Proto where
  | object
  | array (xs : List Atom)
  deriving DecidableEq, Repr

/-- A plain object: own properties and prototype. -/
structure Obj where
  own : Props Value
  proto : Proto
  deriving DecidableEq, Repr

/-- The object literal `{}`. -/
def Obj.empty : Obj := { own := [], proto := .object }

/-- Value of the digits of a decimal numeral, most significant first. -/
def digitsValue (cs : List Char) : Nat :=
  cs.foldl (fun n c => 10 * n + (c.toNat - 48)) 0

/-- Canonical numeric strings: `"0"`, or digits without a leading zero. -/
def isCanonicalIndex (key : String) : Bool :=
  match key.data with
  | [] => false
  | [c] => c.isDigit
  | c :: cs => c.isDigit && c != '0' && cs.all Char.isDigit

/-- Lookup of `key` on `Object.prototype` for a receiver whose prototype is
`receiverProto`: the `__proto__` getter returns the receiver's prototype. -/
def objectPrototypeGet (receiverProto : Value) (key : String) : Value :=
  if key = "__proto__" then receiverProto
  else if key ∈ objectPrototypeKeys then .atom (.objectMember key)
  else .undefined

/-- Lookup of `key` along the prototype chain of an object whose prototype is
`proto` (own properties excluded). -/
def Proto.get : Proto → String → Value
  | .object, key => objectPrototypeGet (.atom .objectPrototype) key
  | .array xs, key =>
    if key = "length" then .atom (.num xs.length)
    else if isCanonicalIndex key then
      match xs.get? (digitsValue key.data) with
      | some a => .atom a
      | none => .undefined
    else if key ∈ arrayPrototypeKeys then .atom (.arrayMember key)
    else objectPrototypeGet (.array xs) key

/-- Property read `params[key]`. -/
def Obj.get (o : Obj) (key : String) : Value :=
  match o.own.get? key with
  | some v => v
  | none => o.proto.get key

/-- Property write `params[key] = v`.  Every inherited property is a writable
data property, so the write creates an own property, except `__proto__`, an
accessor whose setter replaces the prototype when given an object and ignores
primitives. -/
def Obj.set (o : Obj) (key : String) (v : Value) : Obj :=
  match o.own.get? key with
  | some _ => { o with own := o.own.put key v }
  | none =>
    if key = "__proto__" then
      match v with
      | .array xs => { o with proto := .array xs }
      | .atom .objectPrototype => { o with proto := .object }
      | _ => o
    else { o with own := o.own.put key v }

/-- The call `params[key].push(value)` when `params[key]` is the array `xs`:
the array is an own property, or else the prototype read through the
`__proto__` getter. -/
def Obj.push (o : Obj) (key : String) (xs : List Atom) (value : String) : Obj :=
  match o.own.get? key with
  | some _ => { o with own := o.own.put key (.array (xs ++ [.str value])) }
  | none => { o with proto := .array (xs ++ [.str value]) }

/-! ## The platform's `URL` -/

/-- The fields of a platform `URL` object that the code reads;
`searchParams` is the decoded list of pairs, in source order. -/
structure URL where
  href : String
  protocol : String
  host : String
  hostname : String
  port : String
  pathname : String
  search : String
  hash : String
  origin : String
  searchParams : List (String × String)
  deriving DecidableEq, Repr

/-- The constructor `new URL(url)`: it throws on a string that is not a valid
URL. -/
abbrev URLConstructor := String → Except JSError URL

/-! ## `URLParser` -/

namespace URLParser

/-- The callback of `searchParams.forEach` in `parseQuery`. -/
def mergeParam (params : Obj) (entry : String × String) : Obj :=
  let key := entry.1
  let value := entry.2
  let current := params.get key
  if current.truthy then
    match current with
    | .array xs => params.push key xs value
    | .atom a => params.set key (.array [a, .str value])
    | _ => params
  else
    params.set key (.str value)

/-- `URLParser.parseQuery(url)`: the `try` block builds the URL object and
merges each pair into `params`; the `catch` block only logs. -/
def parseQuery (newURL : URLConstructor) (url : String) : Obj :=
  let params := Obj.empty
  match newURL url with
  | .ok urlObj => urlObj.searchParams.foldl mergeParam params
  | .error _ => params

/-- `URLParser.getQueryParams(key, url)`: `searchParams.getAll(key)`, or `[]`
from the `catch` block. -/
def getQueryParams (newURL : URLConstructor) (key : String) (url : String) : List String :=
  match newURL url with
  | .ok urlObj => (urlObj.searchParams.filter (fun p => p.1 = key)).map Prod.snd
  | .error _ => []

/-- A value in the mapping given to `buildQuery`. -/
inductive ParamValue where
  | null
  | undefined
  | scalar (s : String)
  | sequence (xs : List String)
  deriving DecidableEq, Repr

/-- The same value as read back from a parsed mapping. -/
def ParamValue.toValue : ParamValue → Value
  | .null => .null
  | .undefined => .undefined
  | .scalar s => .str s
  | .sequence xs => .array (xs.map Atom.str)

/-- The method `URLSearchParams.prototype.toString` of the platform. -/
abbrev Serializer := List (String × String) → String

/-- The callback of `Object.keys(params).forEach` in `buildQuery`, acting on
the list of pairs held by `searchParams`. -/
def appendParam (params : Props ParamValue) (searchParams : List (String × String))
    (key : String) : List (String × String) :=
  match params.get? key with
  | some (.sequence value) => value.foldl (fun sp v => sp ++ [(key, v)]) searchParams
  | some (.scalar value) => searchParams ++ [(key, value)]
  | _ => searchParams

/-- The pairs `buildQuery` has appended when it calls `toString`. -/
def buildPairs (params : Props ParamValue) : List (String × String) :=
  params.keys.foldl (appendParam params) []

/-- `URLParser.buildQuery(params)`. -/
def buildQuery (serialize : Serializer) (params : Props ParamValue) : String :=
  serialize (buildPairs params)

/-- The constructor `new URLSearchParams(text)` of the platform, as the list
of pairs it decodes; it does not throw on a string. -/
abbrev SearchParser := String → List (String × String)

/-- `s.substring(1)`. -/
def substring1 (s : String) : String := ⟨s.data.drop 1⟩

/-- `URLParser.parseHash(url)`: a fragment with an `=` is merged like a query,
any other non-empty fragment is stored under `hash`; the `catch` block only
logs. -/
def parseHash (newURL : URLConstructor) (parseSearch : SearchParser) (url : String) : Obj :=
  let params := Obj.empty
  match newURL url with
  | .ok urlObj =>
    let hash := substring1 urlObj.hash
    if hash != "" then
      if hash.data.contains '=' then
        (parseSearch hash).foldl mergeParam params
      else
        params.set "hash" (.str hash)
    else params
  | .error _ => params

/-- `URLParser.getQueryParam(key, url)`: `searchParams.get(key)`, the first
value of `key` or `null`; `null` from the `catch` block. -/
def getQueryParam (newURL : URLConstructor) (key : String) (url : String) : Value :=
  match newURL url with
  | .ok urlObj =>
    match (urlObj.searchParams.filter (fun p => p.1 = key)).head? with
    | some p => .str p.2
    | none => .null
  | .error _ => .null

/-- The record `parseURL` returns. -/
structure ParsedURL where
  href : String
  protocol : String
  host : String
  hostname : String
  port : String
  pathname : String
  search : String
  hash : String
  origin : String
  query : Obj
  hashParams : Obj
  deriving DecidableEq, Repr

/-- `URLParser.parseURL(url)`: the record, or `null` (here `none`) from the
`catch` block. -/
def parseURL (newURL : URLConstructor) (parseSearch : SearchParser) (url : String) :
    Option ParsedURL :=
  match newURL url with
  | .ok urlObj =>
    some
      { href := urlObj.href
        protocol := urlObj.protocol
        host := urlObj.host
        hostname := urlObj.hostname
        port := urlObj.port
        pathname := urlObj.pathname
        search := urlObj.search
        hash := urlObj.hash
        origin := urlObj.origin
        query := parseQuery newURL url
        hashParams := parseHash newURL parseSearch url }
  | .error _ => none

/-- The document's address and session history: `href` is
`window.location.href`, `back` the entries before the current one, the most
recent first. -/
structure Window where
  href : String
  back : List String
  deriving DecidableEq, Repr

/-- `window.history.pushState({}, '', url)`: a new entry becomes current. -/
def Window.pushState (window : Window) (url : String) : Window :=
  { href := url, back := window.href :: window.back }

/-- `window.history.replaceState({}, '', url)`: the current entry is replaced. -/
def Window.replaceState (window : Window) (url : String) : Window :=
  { href := url, back := window.back }

/-- `url.searchParams.delete(key)`: every pair named `key` leaves the list. -/
def deleteParam (url : URL) (key : String) : URL :=
  { url with searchParams := url.searchParams.filter (fun p => p.1 ≠ key) }

/-- The `keys` argument of `removeQuery`: one key, or an array of keys. -/
inductive Keys where
  | one (key : String)
  | many (keys : List String)
  deriving DecidableEq, Repr

/-- The expression `Array.isArray(keys) ? keys : [keys]`. -/
def Keys.toArray : Keys → List String
  | .one key => [key]
  | .many keys => keys

/-- `URLParser.removeQuery(keys, replace)` on the document `window`.
`urlToString` is the platform's `url.toString()`, which serializes the URL with
its current list of pairs.  Nothing is caught: when `new URL` throws, so does
`removeQuery`. -/
def removeQuery (newURL : URLConstructor) (urlToString : URL → String) (window : Window)
    (keys : Keys) (replace : Bool := false) : Except JSError Window := do
  let url ← newURL window.href
  let keysArray := keys.toArray
  let url := keysArray.foldl deleteParam url
  if replace then
    pure (window.replaceState (urlToString url))
  else
    pure (window.pushState (urlToString url))

end URLParser

/-! ## Reading a merged property -/

/-- The values of `key` in a list of pairs, in order (`getAll`). -/
def valuesOf (key : String) (pairs : List (String × String)) : List String :=
  (pairs.filter (fun p => p.1 = key)).map Prod.snd

/-- The values `buildQuery` appends for a key whose value in the mapping is
`value`. -/
def paramValues : Option URLParser.ParamValue → List String
  | some (.scalar s) => [s]
  | some (.sequence xs) => xs
  | _ => []

/-- What one more value `v` for a key does to the own property of that key,
when nothing is inherited under the key. -/
def mergeStep (current : Option Value) (v : String) : Option Value :=
  match current with
  | some (.array xs) => some (.array (xs ++ [.str v]))
  | some (.atom a) => if a.truthy then some (.array [a, .str v]) else some (.str v)
  | _ => some (.str v)

/-! ## `PaymentService` -/

/-- The constant `PAYMENT_CONFIG`. -/
structure PaymentConfig where
  API_URL : String
  RESOURCE_TYPE : String
  TIMEOUT : Nat

/-- The value of `PAYMENT_CONFIG` in `paymentService.js`. -/
def PAYMENT_CONFIG : PaymentConfig :=
  { API_URL := "https://eotoai-app.caideai.com/app/pay/elepay"
    RESOURCE_TYPE := "android"
    TIMEOUT := 30000 }

/-- A parameter object `{ type, id }`. -/
structure PaymentParams where
  type : Value
  id : Value
  deriving DecidableEq, Repr

/-- The object `parsePaymentUrl` returns: `originalParams` is present in the
success shape, `error` in the failure shape. -/
structure ParseResult extends PaymentParams where
  success : Bool
  originalParams : Option Obj
  error : Option String
  deriving DecidableEq, Repr

/-- The request payload `{ orderId, paymentMethodType, resourceType }`. -/
structure PaymentData where
  orderId : Value
  paymentMethodType : Value
  resourceType : Value
  deriving DecidableEq, Repr

/-- A decoded JSON response body, identified by its text. -/
structure JsonValue where
  text : String
  deriving DecidableEq, Repr

/-- The signal of the `AbortController` that `processPaymentWithTimeout`
creates: its timer calls `abort()` after `timeoutMs` milliseconds. -/
structure AbortSignal where
  timeoutMs : Nat
  deriving DecidableEq, Repr

/-- The `options` argument: `headers` is empty and `signal` is `none` when
absent, `resourceType` is `undefined` when absent. -/
structure Options where
  headers : Props String := []
  signal : Option AbortSignal := none
  resourceType : Value := .undefined
  deriving DecidableEq, Repr

/-- The second argument of `fetch`; `body` stands for
`JSON.stringify(paymentData)`. -/
structure RequestOptions where
  method : String
  headers : Props String
  body : PaymentData
  signal : Option AbortSignal
  deriving DecidableEq, Repr

/-- A platform `Response`: `json` is what `await response.json()` gives. -/
structure Response where
  status : Nat
  statusText : String
  json : Except JSError JsonValue

/-- The getter `response.ok`: the status is in the range 200 to 299. -/
def Response.ok (r : Response) : Bool := decide (200 ≤ r.status ∧ r.status ≤ 299)

/-- What `await fetch(url, requestOptions)` gives: a response, or a thrown
error (a network failure, or an `AbortError` when the signal aborts). -/
abbrev Fetch := String → RequestOptions → Except JSError Response

/-- The object literals the payment operations resolve to. -/
inductive PaymentResult where
  /-- The literal `responseData` of `sendPaymentRequest`. -/
  | response (success : Bool) (status : Nat) (statusText : String) (data : JsonValue)
      (requestData : PaymentData) (timestamp : String)
  /-- The literal in the `catch` block of `sendPaymentRequest`; `success: false`. -/
  | requestFailed (error : String) (errorType : String) (requestData : PaymentData)
      (timestamp : String)
  /-- The literal with `step: 'parse'`, `error: 'URL解析失败'`; `success: false`. -/
  | parseFailed (details : Option String)
  /-- The literal with `step: 'validate'`, `error: '支付参数无效'`,
  `details: 'type和id参数都是必需的'`; `success: false`. -/
  | validateFailed (parsedParams : ParseResult)
  /-- The literal in the `catch` block of `processPaymentWithTimeout`, with
  `error: '请求超时'`; `success: false`. -/
  | timedOut (timeout : Nat) (timestamp : String)

/-- Field `success` of a result. -/
def PaymentResult.success : PaymentResult → Bool
  | .response success _ _ _ _ _ => success
  | _ => false

/-- Field `step` of a result, when present. -/
def PaymentResult.step : PaymentResult → Option String
  | .parseFailed _ => some "parse"
  | .validateFailed _ => some "validate"
  | _ => none

/-- Field `error` of a result, when present. -/
def PaymentResult.error : PaymentResult → Option String
  | .requestFailed error _ _ _ => some error
  | .parseFailed _ => some "URL解析失败"
  | .validateFailed _ => some "支付参数无效"
  | .timedOut _ _ => some "请求超时"
  | .response _ _ _ _ _ _ => none

/-- Field `errorType` of a result, when present. -/
def PaymentResult.errorType : PaymentResult → Option String
  | .requestFailed _ errorType _ _ => some errorType
  | _ => none

/-- Field `details` of a result, when present. -/
def PaymentResult.details : PaymentResult → Option String
  | .parseFailed details => details
  | .validateFailed _ => some "type和id参数都是必需的"
  | _ => none

/-- Field `parsedParams` of a result, when present. -/
def PaymentResult.parsedParams : PaymentResult → Option ParseResult
  | .validateFailed parsedParams => some parsedParams
  | _ => none

/-- Field `requestData` of a result, when present. -/
def PaymentResult.requestData : PaymentResult → Option PaymentData
  | .response _ _ _ _ requestData _ => some requestData
  | .requestFailed _ _ requestData _ => some requestData
  | _ => none

/-- Field `status` of a result, when present. -/
def PaymentResult.status : PaymentResult → Option Nat
  | .response _ status _ _ _ _ => some status
  | _ => none

/-- Field `statusText` of a result, when present. -/
def PaymentResult.statusText : PaymentResult → Option String
  | .response _ _ statusText _ _ _ => some statusText
  | _ => none

/-- Field `data` of a result, when present. -/
def PaymentResult.data : PaymentResult → Option JsonValue
  | .response _ _ _ data _ _ => some data
  | _ => none

/-- Field `timeout` of a result, when present. -/
def PaymentResult.timeout : PaymentResult → Option Nat
  | .timedOut timeout _ => some timeout
  | _ => none

/-- A settled promise of an `async` payment operation: `outcome` is `ok` when
it resolved and `error` when it rejected; `requests` are the `fetch` calls made
on the way, in order. -/
structure Settled where
  outcome : Except JSError PaymentResult
  requests : List (String × RequestOptions)

/-- The characters `String.prototype.trim` strips: ECMAScript `WhiteSpace`
and `LineTerminator`. -/
def isWhiteSpace (c : Char) : Bool :=
  c.toNat ∈ [9, 10, 11, 12, 13, 32, 160, 5760, 8232, 8233, 8239, 8287, 12288, 65279]
    || (8192 ≤ c.toNat && c.toNat ≤ 8202)

/-- `String.prototype.trim`. -/
def trim (s : String) : String :=
  ⟨((s.data.dropWhile isWhiteSpace).reverse.dropWhile isWhiteSpace).reverse⟩

/-- The expression `v || null`. -/
def orNull (v : Value) : Value := if v.truthy then v else .null

namespace PaymentService

/-- `PaymentService.parsePaymentUrl(url)`.  `URLParser.parseQuery` returns
normally on every input, so the `try` block runs to its `return`; the `catch`
block is kept as the second branch. -/
def parsePaymentUrl (newURL : URLConstructor) (url : String) : ParseResult :=
  match (Except.ok (URLParser.parseQuery newURL url) : Except JSError Obj) with
  | .ok params =>
    { type := orNull (params.get "type")
      id := orNull (params.get "id")
      success := true
      originalParams := some params
      error := none }
  | .error error =>
    { type := .null
      id := .null
      success := false
      originalParams := none
      error := some error.message }

/-- The test `typeof v === 'string' && v.trim() !== ''`. -/
def isNonBlankString : Value → Bool
  | .atom (.str s) => trim s != ""
  | _ => false

/-- `PaymentService.validatePaymentParams(params)` for an object `params`
(the leading `params &&` passes on every object). -/
def validatePaymentParams (params : PaymentParams) : Bool :=
  isNonBlankString params.type && isNonBlankString params.id

/-- `PaymentService.buildPaymentData(orderId, paymentMethodType, resourceType)`:
the default `PAYMENT_CONFIG.RESOURCE_TYPE` applies when the third argument is
`undefined`. -/
def buildPaymentData (orderId paymentMethodType : Value) (resourceType : Value := .undefined) :
    PaymentData :=
  { orderId := orderId
    paymentMethodType := paymentMethodType
    resourceType :=
      if resourceType = .undefined then .str PAYMENT_CONFIG.RESOURCE_TYPE else resourceType }

/-- The constant `requestOptions` of `sendPaymentRequest`: the caller's headers
are spread over the default `Content-Type`. -/
def requestOptions (paymentData : PaymentData) (options : Options) : RequestOptions :=
  { method := "POST"
    headers := options.headers.foldl (fun hs h => hs.put h.1 h.2)
      [("Content-Type", "application/json")]
    body := paymentData
    signal := options.signal }

/-- `PaymentService.sendPaymentRequest(paymentData, options)`; `now` is what
`new Date().toISOString()` returns. -/
def sendPaymentRequest (fetch : Fetch) (now : String) (paymentData : PaymentData)
    (options : Options := {}) : Settled :=
  let attempt : Except JSError PaymentResult := do
    let response ← fetch PAYMENT_CONFIG.API_URL (requestOptions paymentData options)
    let result ← response.json
    pure (.response response.ok response.status response.statusText result paymentData now)
  { outcome :=
      match attempt with
      | .ok responseData => .ok responseData
      | .error error => .ok (.requestFailed error.message error.name paymentData now)
    requests := [(PAYMENT_CONFIG.API_URL, requestOptions paymentData options)] }

/-- `PaymentService.processPaymentFromUrl(paymentUrl, options)`. -/
def processPaymentFromUrl (newURL : URLConstructor) (fetch : Fetch) (now : String)
    (paymentUrl : String) (options : Options := {}) : Settled :=
  let parseResult := parsePaymentUrl newURL paymentUrl
  if !parseResult.success then
    { outcome := .ok (.parseFailed parseResult.error), requests := [] }
  else if !validatePaymentParams parseResult.toPaymentParams then
    { outcome := .ok (.validateFailed parseResult), requests := [] }
  else
    let paymentData := buildPaymentData parseResult.id parseResult.type options.resourceType
    sendPaymentRequest fetch now paymentData options

/-- `PaymentService.processPaymentWithTimeout(paymentUrl, timeout)`.  The timer
that aborts `controller` acts through the platform: `fetch` is given the signal
and throws an `AbortError` when the timer fires first.  `nowCaught` is what
`new Date().toISOString()` returns in the `catch` block. -/
def processPaymentWithTimeout (newURL : URLConstructor) (fetch : Fetch) (now nowCaught : String)
    (paymentUrl : String) (timeout : Nat := PAYMENT_CONFIG.TIMEOUT) : Settled :=
  let controller : AbortSignal := { timeoutMs := timeout }
  let run := processPaymentFromUrl newURL fetch now paymentUrl { signal := some controller }
  match run.outcome with
  | .ok result => { outcome := .ok result, requests := run.requests }
  | .error error =>
    if error.name = "AbortError" then
      { outcome := .ok (.timedOut timeout nowCaught), requests := run.requests }
    else
      { outcome := .error error, requests := run.requests }

end PaymentService

/-! ## A table-driven platform for concrete runs -/

/-- A `new URL` that knows the addresses `https://h/p?<query>` for the queries
listed in `table`, each with its decoded pairs, and throws a `TypeError` on
every other string. -/
def tableURL (table : List (String × List (String × String))) : URLConstructor := fun url =>
  match table.find? (fun e => "https://h/p?" ++ e.1 = url) with
  | some e =>
    .ok { href := url, protocol := "https:", host := "h", hostname := "h", port := "",
          pathname := "/p", search := if e.1 = "" then "" else "?" ++ e.1, hash := "",
          origin := "https://h", searchParams := e.2 }
  | none => .error { name := "TypeError", message := "Invalid URL" }

/-- A `URLSearchParams.prototype.toString` that knows the queries listed in
`table`, each with its decoded pairs. -/
def tableSerializer (table : List (String × List (String × String))) : URLParser.Serializer :=
  fun pairs =>
    match table.find? (fun e => e.2 = pairs) with
    | some e => e.1
    | none => ""

/-- The payload of `example4_sendPaymentRequest`. -/
def examplePayment : PaymentData :=
  { orderId := .str "ORDER_20231201_001"
    paymentMethodType := .str "alipay"
    resourceType := .str "android" }

/-- The error `response.json()` throws on an empty body. -/
def jsonSyntaxError : JSError :=
  { name := "SyntaxError", message := "Unexpected end of JSON input" }

/-- The error `fetch` throws when its signal aborts. -/
def abortError : JSError :=
  { name := "AbortError", message := "The operation was aborted." }

/-- A response with the given status line and a body that is not JSON. -/
def undecodableResponse (status : Nat) (statusText : String) : Response :=
  { status := status, statusText := statusText, json := .error jsonSyntaxError }

/-- A response with the given status line and the JSON body `text`. -/
def jsonResponse (status : Nat) (statusText : String) (text : String) : Response :=
  { status := status, statusText := statusText, json := .ok { text := text } }

/-- A `fetch` that gives the same outcome to every request. -/
def constFetch (outcome : Except JSError Response) : Fetch := fun _ _ => outcome

/-! ## Own properties under `put` -/

theorem Props.get?_put_self {α : Type} (ps : Props α) (key : String) (v : α) :
    (ps.put key v).get? key = some v := by
  induction ps with
  | nil => simp [Props.put, Props.get?]
  | cons p rest ih =>
    obtain ⟨k, w⟩ := p
    by_cases h : k = key
    · simp [Props.put, Props.get?, h]
    · simp [Props.put, Props.get?, h, ih]

theorem Props.get?_put_ne {α : Type} (ps : Props α) (key other : String) (v : α)
    (h : other ≠ key) : (ps.put other v).get? key = ps.get? key := by
  induction ps with
  | nil => simp [Props.put, Props.get?, h]
  | cons p rest ih =>
    obtain ⟨k, w⟩ := p
    by_cases hk : k = other
    · subst hk
      simp [Props.put, Props.get?, h]
    · by_cases hk2 : k = key
      · subst hk2
        simp [Props.put, Props.get?, hk]
      · simp [Props.put, Props.get?, hk, hk2, ih]

/-! ## One step of the merge -/

/-- Only the `__proto__` getter hands out an array along the prototype chain. -/
theorem Proto.get_array (p : Proto) (key : String) (xs : List Atom)
    (h : p.get key = .array xs) : key = "__proto__" := by
  cases p with
  | object =>
    simp only [Proto.get, objectPrototypeGet] at h
    split at h
    · assumption
    · split at h <;> simp at h
  | array ys =>
    simp only [Proto.get, objectPrototypeGet] at h
    split at h
    · simp at h
    · split at h
      · split at h <;> simp at h
      · split at h
        · simp at h
        · split at h
          · assumption
          · split at h <;> simp at h

/-- A key under which nothing is inherited is not `__proto__`. -/
theorem Proto.get_undefined_ne (p : Proto) (key : String) (h : p.get key = .undefined) :
    key ≠ "__proto__" := by
  rintro rfl
  cases p with
  | object => simp [Proto.get, objectPrototypeGet] at h
  | array ys =>
    have h1 : isCanonicalIndex "__proto__" = false := by decide
    have h2 : ("__proto__" ∈ arrayPrototypeKeys) = False := by decide
    simp [Proto.get, objectPrototypeGet, h1, h2] at h

/-- Merging a pair leaves the own properties of every other key alone. -/
theorem URLParser.mergeParam_get?_ne (o : Obj) (key other value : String) (h : other ≠ key) :
    (URLParser.mergeParam o (other, value)).own.get? key = o.own.get? key := by
  unfold URLParser.mergeParam
  simp only
  split
  · split
    · unfold Obj.push
      split
      · simp [Props.get?_put_ne _ _ _ _ h]
      · rfl
    · unfold Obj.set
      split
      · simp [Props.get?_put_ne _ _ _ _ h]
      · split
        · rfl
        · simp [Props.get?_put_ne _ _ _ _ h]
    · rfl
  · unfold Obj.set
    split
    · simp [Props.get?_put_ne _ _ _ _ h]
    · split
      · rfl
      · simp [Props.get?_put_ne _ _ _ _ h]

/-- Merging a pair whose key is not `__proto__` keeps the prototype. -/
theorem URLParser.mergeParam_proto (o : Obj) (key value : String) (h : key ≠ "__proto__") :
    (URLParser.mergeParam o (key, value)).proto = o.proto := by
  unfold URLParser.mergeParam
  simp only
  split
  · split
    · rename_i xs hc
      unfold Obj.push
      split
      · rfl
      · rename_i hown
        exfalso
        apply h
        apply Proto.get_array o.proto key xs
        simpa [Obj.get, hown] using hc
    · unfold Obj.set
      split
      · rfl
      · simp [h]
    · rfl
  · unfold Obj.set
    split
    · rfl
    · simp [h]

/-- Merging a value for a key under which nothing is inherited. -/
theorem URLParser.mergeParam_get?_self (o : Obj) (key value : String)
    (h : o.proto.get key = .undefined) :
    (URLParser.mergeParam o (key, value)).own.get? key = mergeStep (o.own.get? key) value := by
  have hk : key ≠ "__proto__" := Proto.get_undefined_ne _ _ h
  unfold URLParser.mergeParam Obj.get Obj.set Obj.push mergeStep
  simp only
  cases hown : o.own.get? key with
  | none => simp [h, Value.truthy, hk, Props.get?_put_self]
  | some v =>
    cases v with
    | undefined => simp [Value.truthy, hown, Props.get?_put_self]
    | null => simp [Value.truthy, hown, Props.get?_put_self]
    | atom a =>
      by_cases ha : a.truthy = true
      · simp [Value.truthy, hown, ha, Props.get?_put_self]
      · simp [Value.truthy, hown, ha, Props.get?_put_self]
    | array xs => simp [Value.truthy, hown, Props.get?_put_self]

/-! ## The merge over a whole query -/

theorem valuesOf_cons_self (key value : String) (pairs : List (String × String)) :
    valuesOf key ((key, value) :: pairs) = value :: valuesOf key pairs := by
  simp [valuesOf]

theorem valuesOf_cons_ne (key other value : String) (pairs : List (String × String))
    (h : other ≠ key) : valuesOf key ((other, value) :: pairs) = valuesOf key pairs := by
  simp [valuesOf, h]

/-- For a key under which nothing can be inherited, the own property after the
merge is the fold of `mergeStep` over the values of the key. -/
theorem URLParser.foldl_mergeParam_get? (key : String)
    (h : ∀ p : Proto, p.get key = .undefined) (pairs : List (String × String)) (o : Obj) :
    (pairs.foldl URLParser.mergeParam o).own.get? key
      = (valuesOf key pairs).foldl mergeStep (o.own.get? key) := by
  induction pairs generalizing o with
  | nil => simp [valuesOf]
  | cons p rest ih =>
    obtain ⟨k, v⟩ := p
    rw [List.foldl_cons, ih]
    by_cases hk : k = key
    · subst hk
      rw [valuesOf_cons_self, List.foldl_cons, URLParser.mergeParam_get?_self _ _ _ (h _)]
    · rw [valuesOf_cons_ne _ _ _ _ hk, URLParser.mergeParam_get?_ne _ _ _ _ hk]

theorem Proto.object_get_undefined (key : String) (h : key ∉ objectPrototypeKeys) :
    Proto.object.get key = .undefined := by
  have hk : key ≠ "__proto__" := by
    rintro rfl
    exact h (by decide)
  simp [Proto.get, objectPrototypeGet, hk, h]

/-- Without a `__proto__` pair the prototype stays `Object.prototype`, and the
own property of a key that `Object.prototype` lacks is the fold of `mergeStep`. -/
theorem URLParser.foldl_mergeParam_object (key : String) (hkey : key ∉ objectPrototypeKeys)
    (pairs : List (String × String)) (hp : ∀ p ∈ pairs, p.1 ≠ "__proto__") (o : Obj)
    (ho : o.proto = .object) :
    (pairs.foldl URLParser.mergeParam o).proto = .object ∧
    (pairs.foldl URLParser.mergeParam o).own.get? key
      = (valuesOf key pairs).foldl mergeStep (o.own.get? key) := by
  induction pairs generalizing o with
  | nil => simp [valuesOf, ho]
  | cons p rest ih =>
    obtain ⟨k, v⟩ := p
    have hk0 : k ≠ "__proto__" := hp (k, v) (by simp)
    have hrest : ∀ p ∈ rest, p.1 ≠ "__proto__" := fun p hmem => hp p (by simp [hmem])
    have hproto : (URLParser.mergeParam o (k, v)).proto = .object := by
      rw [URLParser.mergeParam_proto _ _ _ hk0, ho]
    obtain ⟨h1, h2⟩ := ih hrest _ hproto
    refine ⟨by simpa using h1, ?_⟩
    rw [List.foldl_cons, h2]
    by_cases hk : k = key
    · subst hk
      rw [valuesOf_cons_self, List.foldl_cons, URLParser.mergeParam_get?_self]
      rw [ho]
      exact Proto.object_get_undefined _ hkey
    · rw [valuesOf_cons_ne _ _ _ _ hk, URLParser.mergeParam_get?_ne _ _ _ _ hk]

/-! ## Closed forms of the fold of `mergeStep` -/

theorem foldl_mergeStep_array (xs : List Atom) (vs : List String) :
    vs.foldl mergeStep (some (.array xs)) = some (.array (xs ++ vs.map Atom.str)) := by
  induction vs generalizing xs with
  | nil => simp
  | cons v rest ih => simp [mergeStep, ih]

theorem foldl_mergeStep_nonempty (s : String) (hs : s ≠ "") (v : String) (vs : List String) :
    (v :: vs).foldl mergeStep (some (.str s))
      = some (.array (.str s :: (v :: vs).map Atom.str)) := by
  simp [mergeStep, Atom.truthy, hs, foldl_mergeStep_array]

theorem foldl_mergeStep_single (v : String) :
    [v].foldl mergeStep none = some (.str v) := by
  simp [mergeStep]

/-- Two or more values, the first of them non-empty, merge into the array of
all of them. -/
theorem foldl_mergeStep_many (v w : String) (vs : List String) (hv : v ≠ "") :
    (v :: w :: vs).foldl mergeStep none = some (.array ((v :: w :: vs).map Atom.str)) := by
  rw [List.foldl_cons]
  have : mergeStep none v = some (.str v) := rfl
  rw [this, foldl_mergeStep_nonempty v hv]
  rfl

/-- The merged value is falsy or absent exactly when every value is empty. -/
theorem foldl_mergeStep_truthy (vs : List String) (current : Option Value)
    (hc : current = none ∨ current = some (.str "")) :
    (∀ v ∈ vs, v = "") ↔
      ((vs.foldl mergeStep current).getD .undefined).truthy = false := by
  induction vs generalizing current with
  | nil => rcases hc with rfl | rfl <;> simp [Value.truthy, Atom.truthy]
  | cons v rest ih =>
    have hstep : mergeStep current v = some (.str v) := by
      rcases hc with rfl | rfl <;> simp [mergeStep, Atom.truthy]
    rw [List.foldl_cons, hstep]
    by_cases hv : v = ""
    · subst hv
      rw [← ih _ (Or.inr rfl)]
      simp
    · constructor
      · intro hall
        exact absurd (hall v (by simp)) hv
      · intro hf
        exfalso
        cases rest with
        | nil => simp [Value.truthy, Atom.truthy, hv] at hf
        | cons w ws =>
          rw [foldl_mergeStep_nonempty v hv] at hf
          simp [Value.truthy] at hf

/-! ## Trimming -/

/-- A string trims to the empty string exactly when all its characters are
white space. -/
theorem trim_eq_empty_iff (s : String) : trim s = "" ↔ ∀ c ∈ s.data, isWhiteSpace c = true := by
  have hmk : ∀ l : List Char, (String.mk l = "") ↔ l = [] := by
    intro l
    constructor
    · intro h
      have := congrArg String.data h
      simpa using this
    · rintro rfl
      rfl
  unfold trim
  rw [hmk, List.reverse_eq_nil_iff, List.dropWhile_eq_nil_iff]
  constructor
  · intro h
    have hd : s.data.dropWhile isWhiteSpace = [] := by
      by_contra hne
      have h1 := List.head_dropWhile_not isWhiteSpace s.data hne
      have h2 := h _ (List.mem_reverse.mpr (List.head_mem hne))
      simp [h2] at h1
    exact List.dropWhile_eq_nil_iff.mp hd
  · intro h x hx
    have hd : s.data.dropWhile isWhiteSpace = [] := List.dropWhile_eq_nil_iff.mpr h
    simp [hd] at hx

theorem trim_empty : trim "" = "" := by decide

/-! ## The claims -/

/-- C1, the code at a failing input: the query `k=&k=a` holds the key `k`
twice, with the values `""` and `"a"` in that order, as `getQueryParams`
reports; `parseQuery` maps `k` to the string `"a"`, not to a sequence of
length 2. -/
theorem C1_parseQuery_empty_first_value :
    URLParser.getQueryParams (tableURL [("k=&k=a", [("k", ""), ("k", "a")])]) "k"
        "https://h/p?k=&k=a" = ["", "a"] ∧
    URLParser.parseQuery (tableURL [("k=&k=a", [("k", ""), ("k", "a")])])
        "https://h/p?k=&k=a" = { own := [("k", .str "a")], proto := .object } := by
  decide

/-- C2, the code at a failing input: on the string `invalid-url`, which
`new URL` rejects, `processPaymentFromUrl` issues no request and resolves to
the failure of the validation step, `step: 'validate'`, carrying a parse result
with `success: true`; it does not resolve to `step: 'parse'`. -/
theorem C2_invalid_url_fails_at_validate (fetch : Fetch) (now : String) (options : Options) :
    (PaymentService.processPaymentFromUrl (tableURL []) fetch now "invalid-url" options).outcome
      = .ok (.validateFailed
          { type := .null, id := .null, success := true,
            originalParams := some Obj.empty, error := none }) ∧
    (PaymentService.processPaymentFromUrl (tableURL []) fetch now "invalid-url" options).outcome.map
        PaymentResult.step = .ok (some "validate") ∧
    (PaymentService.processPaymentFromUrl (tableURL []) fetch now "invalid-url" options).requests
      = [] := by
  refine ⟨rfl, rfl, rfl⟩

/-- C3, the code at a failing input: when the timer fires first and `fetch`
throws an `AbortError`, `processPaymentWithTimeout` resolves to the failure
result of `sendPaymentRequest`, with `errorType: 'AbortError'` and the abort
message, and not to the timeout outcome with `error: '请求超时'`. -/
theorem C3_abort_is_reported_as_request_failure (now nowCaught : String) :
    (PaymentService.processPaymentWithTimeout
        (tableURL [("type=unionpay&id=ORDER_3", [("type", "unionpay"), ("id", "ORDER_3")])])
        (constFetch (.error { name := "AbortError", message := "The operation was aborted." }))
        now nowCaught "https://h/p?type=unionpay&id=ORDER_3" 10000).outcome
      = .ok (.requestFailed "The operation was aborted." "AbortError"
          { orderId := .str "ORDER_3", paymentMethodType := .str "unionpay",
            resourceType := .str "android" } now) ∧
    (PaymentService.processPaymentWithTimeout
        (tableURL [("type=unionpay&id=ORDER_3", [("type", "unionpay"), ("id", "ORDER_3")])])
        (constFetch (.error { name := "AbortError", message := "The operation was aborted." }))
        now nowCaught "https://h/p?type=unionpay&id=ORDER_3" 10000).outcome.map
        PaymentResult.error ≠ .ok (some "请求超时") := by
  have h : (PaymentService.processPaymentWithTimeout
        (tableURL [("type=unionpay&id=ORDER_3", [("type", "unionpay"), ("id", "ORDER_3")])])
        (constFetch (.error { name := "AbortError", message := "The operation was aborted." }))
        now nowCaught "https://h/p?type=unionpay&id=ORDER_3" 10000).outcome
      = .ok (.requestFailed "The operation was aborted." "AbortError"
          { orderId := .str "ORDER_3", paymentMethodType := .str "unionpay",
            resourceType := .str "android" } now) := rfl
  refine ⟨h, ?_⟩
  rw [h]
  simp [Except.map, PaymentResult.error]

/-- C5: `validatePaymentParams(params)` is `true` exactly when `params.type`
and `params.id` are both strings that are non-empty after `trim`; it is `false`
on `{type:'', id:'x'}` and `{type:'  ', id:'b'}` and `true` on
`{type:'a', id:'b'}`. -/
theorem C5_validatePaymentParams (params : PaymentParams) :
    (PaymentService.validatePaymentParams params = true ↔
      ∃ t i, params.type = .str t ∧ params.id = .str i ∧ trim t ≠ "" ∧ trim i ≠ "") ∧
    PaymentService.validatePaymentParams { type := .str "", id := .str "x" } = false ∧
    PaymentService.validatePaymentParams { type := .str "  ", id := .str "b" } = false ∧
    PaymentService.validatePaymentParams { type := .str "a", id := .str "b" } = true := by
  refine ⟨?_, by decide, by decide, by decide⟩
  obtain ⟨type, id⟩ := params
  simp only [PaymentService.validatePaymentParams, Bool.and_eq_true]
  constructor
  · rintro ⟨h1, h2⟩
    cases type with
    | atom a =>
      cases a with
      | str t =>
        cases id with
        | atom b =>
          cases b with
          | str i =>
            refine ⟨t, i, rfl, rfl, ?_, ?_⟩
            · simpa [PaymentService.isNonBlankString] using h1
            · simpa [PaymentService.isNonBlankString] using h2
          | _ => simp [PaymentService.isNonBlankString] at h2
        | _ => simp [PaymentService.isNonBlankString] at h2
      | _ => simp [PaymentService.isNonBlankString] at h1
    | _ => simp [PaymentService.isNonBlankString] at h1
  · rintro ⟨t, i, ht, hi, h1, h2⟩
    subst ht hi
    simp [PaymentService.isNonBlankString, h1, h2]

/-! ## `buildQuery` followed by `parseQuery` -/

theorem valuesOf_append (key : String) (a b : List (String × String)) :
    valuesOf key (a ++ b) = valuesOf key a ++ valuesOf key b := by
  simp [valuesOf]

theorem foldl_append_pairs (key : String) (vs : List String) (sp : List (String × String)) :
    vs.foldl (fun sp v => sp ++ [(key, v)]) sp = sp ++ vs.map (fun v => (key, v)) := by
  induction vs generalizing sp with
  | nil => simp
  | cons v rest ih => simp [ih]

theorem valuesOf_map_self (key : String) (vs : List String) :
    valuesOf key (vs.map (fun v => (key, v))) = vs := by
  induction vs with
  | nil => rfl
  | cons v rest ih =>
    rw [List.map_cons, valuesOf_cons_self, ih]

theorem valuesOf_map_ne (key other : String) (vs : List String) (h : other ≠ key) :
    valuesOf key (vs.map (fun v => (other, v))) = [] := by
  induction vs with
  | nil => rfl
  | cons v rest ih =>
    rw [List.map_cons, valuesOf_cons_ne _ _ _ _ h, ih]

/-- What `appendParam` appends. -/
theorem URLParser.appendParam_eq (params : Props URLParser.ParamValue)
    (sp : List (String × String)) (key : String) :
    URLParser.appendParam params sp key
      = sp ++ (paramValues (params.get? key)).map (fun v => (key, v)) := by
  unfold URLParser.appendParam
  cases h : params.get? key with
  | none => simp [paramValues]
  | some value =>
    cases value with
    | null => simp [paramValues]
    | undefined => simp [paramValues]
    | scalar s => simp [paramValues]
    | sequence xs => simp [paramValues, foldl_append_pairs]

/-- Every pair appended by `buildQuery` carries one of the listed keys. -/
theorem URLParser.foldl_appendParam_keys (params : Props URLParser.ParamValue)
    (keys : List String) (sp : List (String × String)) :
    ∀ p ∈ keys.foldl (URLParser.appendParam params) sp, p ∈ sp ∨ p.1 ∈ keys := by
  induction keys generalizing sp with
  | nil => simp
  | cons k rest ih =>
    intro p hp
    rw [List.foldl_cons] at hp
    rcases ih _ p hp with h | h
    · rw [URLParser.appendParam_eq, List.mem_append] at h
      rcases h with h | h
      · exact Or.inl h
      · right
        obtain ⟨v, _, rfl⟩ := List.mem_map.mp h
        simp
    · right
      simp [h]

/-- The values `buildQuery` appends under a key, for keys listed once. -/
theorem URLParser.foldl_appendParam_valuesOf (params : Props URLParser.ParamValue) (key : String)
    (keys : List String) (hnd : keys.Nodup) (sp : List (String × String)) :
    valuesOf key (keys.foldl (URLParser.appendParam params) sp)
      = valuesOf key sp ++ (if key ∈ keys then paramValues (params.get? key) else []) := by
  induction keys generalizing sp with
  | nil => simp
  | cons k rest ih =>
    obtain ⟨hk, hrest⟩ := List.nodup_cons.mp hnd
    rw [List.foldl_cons, ih hrest, URLParser.appendParam_eq, valuesOf_append]
    by_cases h : k = key
    · subst h
      simp [valuesOf_map_self, hk]
    · have h2 : ¬ key = k := fun e => h e.symm
      simp [valuesOf_map_ne _ _ _ h, h2]

theorem Props.get?_eq_none {α : Type} (ps : Props α) (key : String) (h : key ∉ ps.keys) :
    ps.get? key = none := by
  induction ps with
  | nil => rfl
  | cons p rest ih =>
    obtain ⟨k, w⟩ := p
    simp only [Props.keys, List.map_cons, List.mem_cons, not_or] at h
    have hk : ¬ k = key := fun e => h.1 e.symm
    simp only [Props.get?, hk, if_false]
    exact ih h.2

theorem Props.get?_mem {α : Type} (ps : Props α) (key : String) (v : α)
    (h : ps.get? key = some v) : (key, v) ∈ ps := by
  induction ps with
  | nil => simp [Props.get?] at h
  | cons p rest ih =>
    obtain ⟨k, w⟩ := p
    by_cases hk : k = key
    · subst hk
      simp [Props.get?] at h
      simp [h]
    · simp only [Props.get?, hk, if_false] at h
      simp [ih h]

theorem Props.mem_keys_of_get? {α : Type} (ps : Props α) (key : String) (v : α)
    (h : ps.get? key = some v) : key ∈ ps.keys := by
  have := Props.get?_mem ps key v h
  exact List.mem_map.mpr ⟨(key, v), this, rfl⟩

theorem Props.get?_isSome_of_mem {α : Type} (ps : Props α) (key : String) (h : key ∈ ps.keys) :
    ∃ v, ps.get? key = some v := by
  cases hg : ps.get? key with
  | some v => exact ⟨v, rfl⟩
  | none =>
    exfalso
    induction ps with
    | nil => simp [Props.keys] at h
    | cons p rest ih =>
      obtain ⟨k, w⟩ := p
      by_cases hk : k = key
      · simp [Props.get?, hk] at hg
      · simp only [Props.get?, hk, if_false] at hg
        simp only [Props.keys, List.map_cons, List.mem_cons] at h
        rcases h with h | h
        · exact hk h.symm
        · exact ih h hg

/-- Pairs none of which carries `key` leave the own property of `key` alone. -/
theorem URLParser.foldl_mergeParam_absent (key : String) (pairs : List (String × String))
    (h : ∀ p ∈ pairs, p.1 ≠ key) (o : Obj) :
    (pairs.foldl URLParser.mergeParam o).own.get? key = o.own.get? key := by
  induction pairs generalizing o with
  | nil => rfl
  | cons p rest ih =>
    obtain ⟨k, v⟩ := p
    rw [List.foldl_cons, ih (fun p hp => h p (by simp [hp]))]
    exact URLParser.mergeParam_get?_ne _ _ _ _ (h (k, v) (by simp))

/-- C4 as stated fails: the mapping `{a: ['x']}` is built into the query `a=x`,
which parses back to `{a: 'x'}`, the string and not the one-element
sequence. -/
theorem C4_counterexample :
    URLParser.buildQuery (tableSerializer [("a=x", [("a", "x")])]) [("a", .sequence ["x"])]
      = "a=x" ∧
    (URLParser.parseQuery (tableURL [("a=x", [("a", "x")])])
      ("https://h/p?" ++ URLParser.buildQuery (tableSerializer [("a=x", [("a", "x")])])
        [("a", .sequence ["x"])])).own.get? "a" = some (.str "x") ∧
    (Props.get? [("a", URLParser.ParamValue.sequence ["x"])] "a").map URLParser.ParamValue.toValue
      = some (.array [.str "x"]) := by
  decide

/-- C4 as amended: let `m` map distinct keys, none of them a property name of
`Object.prototype`, to strings or to sequences of at least two strings whose
first element is non-empty, and let the platform parse the query text of
`buildQuery(m)` back into the pairs it was built from.  Then
`parseQuery('https://h/p?' + buildQuery(m))` is a plain object with the same
keys as `m`, each carrying the same string, or the same sequence in the same
order. -/
theorem C4_buildQuery_parseQuery (newURL : URLConstructor) (serialize : URLParser.Serializer)
    (m : Props URLParser.ParamValue) (urlObj : URL)
    (hurl : newURL ("https://h/p?" ++ URLParser.buildQuery serialize m) = .ok urlObj)
    (hpairs : urlObj.searchParams = URLParser.buildPairs m)
    (hnodup : m.keys.Nodup)
    (hkeys : ∀ k ∈ m.keys, k ∉ objectPrototypeKeys)
    (hvals : ∀ e ∈ m, (∃ s, e.2 = .scalar s) ∨
      (∃ v w vs, e.2 = .sequence (v :: w :: vs) ∧ v ≠ "")) :
    (URLParser.parseQuery newURL ("https://h/p?" ++ URLParser.buildQuery serialize m)).proto
      = .object ∧
    (∀ k, k ∈ (URLParser.parseQuery newURL
        ("https://h/p?" ++ URLParser.buildQuery serialize m)).own.keys ↔ k ∈ m.keys) ∧
    (∀ k, (URLParser.parseQuery newURL
        ("https://h/p?" ++ URLParser.buildQuery serialize m)).own.get? k
      = (m.get? k).map URLParser.ParamValue.toValue) := by
  have hproto_key : ∀ p ∈ URLParser.buildPairs m, p.1 ≠ "__proto__" := by
    intro p hp hcontra
    rcases URLParser.foldl_appendParam_keys m m.keys [] p hp with h | h
    · simp at h
    · rw [hcontra] at h
      exact hkeys _ h (by decide)
  have hvalues : ∀ k, valuesOf k (URLParser.buildPairs m)
      = if k ∈ m.keys then paramValues (m.get? k) else [] := by
    intro k
    have := URLParser.foldl_appendParam_valuesOf m k m.keys hnodup []
    simpa [URLParser.buildPairs, valuesOf] using this
  have hget : ∀ k, (URLParser.parseQuery newURL
        ("https://h/p?" ++ URLParser.buildQuery serialize m)).own.get? k
      = (m.get? k).map URLParser.ParamValue.toValue := by
    intro k
    simp only [URLParser.parseQuery, hurl, hpairs]
    by_cases hk : k ∈ m.keys
    · obtain ⟨value, hv⟩ := Props.get?_isSome_of_mem m k hk
      have hfold := (URLParser.foldl_mergeParam_object k (hkeys k hk) (URLParser.buildPairs m)
        hproto_key Obj.empty rfl).2
      rw [hfold, hvalues k, if_pos hk, hv]
      rcases hvals (k, value) (Props.get?_mem m k value hv) with ⟨s, hs⟩ | ⟨v, w, vs, hs, hne⟩
      · simp only at hs
        subst hs
        rfl
      · simp only at hs
        subst hs
        simp only [paramValues, Obj.empty, Props.get?]
        rw [foldl_mergeStep_many v w vs hne]
        rfl
    · rw [Props.get?_eq_none m k hk]
      rw [URLParser.foldl_mergeParam_absent k]
      · rfl
      · intro p hp hcontra
        rcases URLParser.foldl_appendParam_keys m m.keys [] p hp with h | h
        · simp at h
        · rw [hcontra] at h
          exact hk h
  refine ⟨?_, ?_, hget⟩
  · simp only [URLParser.parseQuery, hurl, hpairs]
    exact (URLParser.foldl_mergeParam_object "a" (by decide) (URLParser.buildPairs m)
      hproto_key Obj.empty rfl).1
  · intro k
    constructor
    · intro hk
      obtain ⟨v, hv⟩ := Props.get?_isSome_of_mem _ k hk
      rw [hget k] at hv
      cases hm : m.get? k with
      | none => simp [hm] at hv
      | some w => exact Props.mem_keys_of_get? m k w hm
    · intro hk
      obtain ⟨v, hv⟩ := Props.get?_isSome_of_mem m k hk
      have := hget k
      rw [hv] at this
      exact Props.mem_keys_of_get? _ k _ this

/-- C4 as amended, at the mapping `{tags: ['vue', 'js'], q: ''}`. -/
theorem C4_buildQuery_parseQuery_witness :
    (URLParser.parseQuery
        (tableURL [("tags=vue&tags=js&q=", [("tags", "vue"), ("tags", "js"), ("q", "")])])
        ("https://h/p?" ++ URLParser.buildQuery
          (tableSerializer [("tags=vue&tags=js&q=", [("tags", "vue"), ("tags", "js"), ("q", "")])])
          [("tags", .sequence ["vue", "js"]), ("q", .scalar "")])).own.get? "tags"
      = some (.array [.str "vue", .str "js"]) ∧
    (URLParser.parseQuery
        (tableURL [("tags=vue&tags=js&q=", [("tags", "vue"), ("tags", "js"), ("q", "")])])
        ("https://h/p?" ++ URLParser.buildQuery
          (tableSerializer [("tags=vue&tags=js&q=", [("tags", "vue"), ("tags", "js"), ("q", "")])])
          [("tags", .sequence ["vue", "js"]), ("q", .scalar "")])).own.get? "q"
      = some (.str "") :=
  have h := C4_buildQuery_parseQuery
    (tableURL [("tags=vue&tags=js&q=", [("tags", "vue"), ("tags", "js"), ("q", "")])])
    (tableSerializer [("tags=vue&tags=js&q=", [("tags", "vue"), ("tags", "js"), ("q", "")])])
    [("tags", .sequence ["vue", "js"]), ("q", .scalar "")]
    { href := "https://h/p?tags=vue&tags=js&q=", protocol := "https:", host := "h",
      hostname := "h", port := "", pathname := "/p", search := "?tags=vue&tags=js&q=",
      hash := "", origin := "https://h",
      searchParams := [("tags", "vue"), ("tags", "js"), ("q", "")] }
    rfl (by decide) (by decide) (by decide)
    (by
      intro e he
      simp only [List.mem_cons, List.mem_singleton, List.not_mem_nil, or_false] at he
      rcases he with rfl | rfl
      · exact Or.inr ⟨"vue", "js", [], rfl, by decide⟩
      · exact Or.inl ⟨"", rfl⟩)
  ⟨(h.2.2 "tags").trans (by decide), (h.2.2 "q").trans (by decide)⟩

/-! ## The `type` and `id` parameters -/

/-- No prototype of `params` has a property `type`. -/
theorem Proto.get_type (p : Proto) : p.get "type" = .undefined := by
  have h1 : isCanonicalIndex "type" = false := by decide
  have h2 : "type" ∉ arrayPrototypeKeys := by decide
  have h3 : "type" ∉ objectPrototypeKeys := by decide
  cases p <;> simp [Proto.get, objectPrototypeGet, h1, h2, h3]

/-- No prototype of `params` has a property `id`. -/
theorem Proto.get_id (p : Proto) : p.get "id" = .undefined := by
  have h1 : isCanonicalIndex "id" = false := by decide
  have h2 : "id" ∉ arrayPrototypeKeys := by decide
  have h3 : "id" ∉ objectPrototypeKeys := by decide
  cases p <;> simp [Proto.get, objectPrototypeGet, h1, h2, h3]

/-- Reading a key under which nothing is inherited, after the merge of a query
into `{}`. -/
theorem URLParser.get_foldl_mergeParam (key : String) (h : ∀ p : Proto, p.get key = .undefined)
    (pairs : List (String × String)) :
    (pairs.foldl URLParser.mergeParam Obj.empty).get key
      = ((valuesOf key pairs).foldl mergeStep none).getD .undefined := by
  have hown := URLParser.foldl_mergeParam_get? key h pairs Obj.empty
  rw [show Obj.empty.own.get? key = none from rfl] at hown
  unfold Obj.get
  rw [hown]
  cases (valuesOf key pairs).foldl mergeStep none with
  | none => simp [h]
  | some v => rfl

/-- After a blank value the merged property is an array or a blank string. -/
theorem mergeStep_blank (current : Option Value) (v : String) (hv : trim v = "") :
    PaymentService.isNonBlankString (orNull ((mergeStep current v).getD .undefined)) = false := by
  have hstr : PaymentService.isNonBlankString (orNull (.str v)) = false := by
    unfold orNull
    split <;> simp [PaymentService.isNonBlankString, hv]
  have harr : ∀ xs, PaymentService.isNonBlankString (orNull (.array xs)) = false := by
    intro xs
    simp [orNull, Value.truthy, PaymentService.isNonBlankString]
  unfold mergeStep
  split
  · exact harr _
  · split
    · exact harr _
    · exact hstr
  · exact hstr

/-- Values that are all blank never merge into a usable parameter. -/
theorem foldl_mergeStep_blank (vs : List String) (hall : ∀ v ∈ vs, trim v = "")
    (current : Option Value)
    (hc : PaymentService.isNonBlankString (orNull (current.getD .undefined)) = false) :
    PaymentService.isNonBlankString (orNull ((vs.foldl mergeStep current).getD .undefined))
      = false := by
  induction vs generalizing current with
  | nil => exact hc
  | cons v rest ih =>
    rw [List.foldl_cons]
    exact ih (fun w hw => hall w (by simp [hw])) _ (mergeStep_blank current v (hall v (by simp)))

/-- A single non-blank value is read back as that string. -/
theorem orNull_single (t : String) (ht : trim t ≠ "") :
    orNull (([t].foldl mergeStep none).getD .undefined) = .str t := by
  have hne : t ≠ "" := by
    rintro rfl
    exact ht trim_empty
  simp [mergeStep, orNull, Value.truthy, Atom.truthy, hne]

/-- C6: for a valid URL in which every value of the `type` parameter, or every
value of the `id` parameter, trims to the empty string (the parameter is
missing, empty or whitespace-only), `processPaymentFromUrl` issues no request
and resolves to the result with `success: false`, `step: 'validate'`, the
invalid-parameters `error` and `details`, and `parsedParams` the result of
`parsePaymentUrl(url)`. -/
theorem C6_unusable_parameter_fails_validation (newURL : URLConstructor) (fetch : Fetch)
    (now url : String) (options : Options) (urlObj : URL)
    (hurl : newURL url = .ok urlObj)
    (hblank : (∀ v ∈ valuesOf "type" urlObj.searchParams, trim v = "") ∨
      (∀ v ∈ valuesOf "id" urlObj.searchParams, trim v = "")) :
    (PaymentService.processPaymentFromUrl newURL fetch now url options).outcome
      = .ok (.validateFailed (PaymentService.parsePaymentUrl newURL url)) ∧
    (PaymentService.processPaymentFromUrl newURL fetch now url options).requests = [] ∧
    (PaymentService.processPaymentFromUrl newURL fetch now url options).outcome.map
        PaymentResult.success = .ok false ∧
    (PaymentService.processPaymentFromUrl newURL fetch now url options).outcome.map
        PaymentResult.step = .ok (some "validate") ∧
    (PaymentService.processPaymentFromUrl newURL fetch now url options).outcome.map
        PaymentResult.error = .ok (some "支付参数无效") ∧
    (PaymentService.processPaymentFromUrl newURL fetch now url options).outcome.map
        PaymentResult.details = .ok (some "type和id参数都是必需的") := by
  have hvalid : PaymentService.validatePaymentParams
      (PaymentService.parsePaymentUrl newURL url).toPaymentParams = false := by
    simp only [PaymentService.validatePaymentParams, PaymentService.parsePaymentUrl,
      URLParser.parseQuery, hurl, Bool.and_eq_false_iff]
    rcases hblank with h | h
    · left
      rw [URLParser.get_foldl_mergeParam "type" Proto.get_type]
      exact foldl_mergeStep_blank _ h none rfl
    · right
      rw [URLParser.get_foldl_mergeParam "id" Proto.get_id]
      exact foldl_mergeStep_blank _ h none rfl
  have hsuccess : (PaymentService.parsePaymentUrl newURL url).success = true := rfl
  have hrun : PaymentService.processPaymentFromUrl newURL fetch now url options
      = { outcome := .ok (.validateFailed (PaymentService.parsePaymentUrl newURL url)),
          requests := [] } := by
    simp [PaymentService.processPaymentFromUrl, hsuccess, hvalid]
  rw [hrun]
  exact ⟨rfl, rfl, rfl, rfl, rfl, rfl⟩

/-- C6 at `https://h/p?type=wechat`, where `id` is missing. -/
theorem C6_unusable_parameter_fails_validation_witness :
    (PaymentService.processPaymentFromUrl (tableURL [("type=wechat", [("type", "wechat")])])
        (constFetch (.error { name := "TypeError", message := "Failed to fetch" }))
        "2024-01-01T00:00:00.000Z" "https://h/p?type=wechat" {}).outcome.map PaymentResult.step
      = .ok (some "validate") ∧
    (PaymentService.processPaymentFromUrl (tableURL [("type=wechat", [("type", "wechat")])])
        (constFetch (.error { name := "TypeError", message := "Failed to fetch" }))
        "2024-01-01T00:00:00.000Z" "https://h/p?type=wechat" {}).requests = [] :=
  have h := C6_unusable_parameter_fails_validation
    (tableURL [("type=wechat", [("type", "wechat")])])
    (constFetch (.error { name := "TypeError", message := "Failed to fetch" }))
    "2024-01-01T00:00:00.000Z" "https://h/p?type=wechat" {}
    { href := "https://h/p?type=wechat", protocol := "https:", host := "h", hostname := "h",
      port := "", pathname := "/p", search := "?type=wechat", hash := "",
      origin := "https://h", searchParams := [("type", "wechat")] }
    rfl (Or.inr (by decide))
  ⟨h.2.2.2.1, h.2.1⟩

/-- C7: for a valid URL whose query has exactly one `type` value `t` and
exactly one `id` value `i`, both non-blank, and for every `options`,
`processPaymentFromUrl` does what `sendPaymentRequest` does for the payload
`{orderId: i, paymentMethodType: t, resourceType: r}`, with `r` the caller's
`options.resourceType` when it is not `undefined` and `'android'` otherwise: it
issues exactly one request, a POST of that payload, and resolves to the same
result, which has no `step` field. -/
theorem C7_valid_url_sends_one_request (newURL : URLConstructor) (fetch : Fetch)
    (now url : String) (options : Options) (urlObj : URL) (t i : String)
    (hurl : newURL url = .ok urlObj)
    (htype : valuesOf "type" urlObj.searchParams = [t]) (ht : trim t ≠ "")
    (hid : valuesOf "id" urlObj.searchParams = [i]) (hi : trim i ≠ "") :
    PaymentService.processPaymentFromUrl newURL fetch now url options
      = PaymentService.sendPaymentRequest fetch now
          { orderId := .str i, paymentMethodType := .str t,
            resourceType :=
              if options.resourceType = .undefined then .str "android"
              else options.resourceType } options ∧
    (PaymentService.processPaymentFromUrl newURL fetch now url options).requests.map
        (fun r => (r.1, r.2.method, r.2.body))
      = [(PAYMENT_CONFIG.API_URL, "POST",
          { orderId := .str i, paymentMethodType := .str t,
            resourceType :=
              if options.resourceType = .undefined then .str "android"
              else options.resourceType })] ∧
    (PaymentService.processPaymentFromUrl newURL fetch now url options).outcome.map
        PaymentResult.step = .ok none := by
  have hptype : (PaymentService.parsePaymentUrl newURL url).type = .str t := by
    simp only [PaymentService.parsePaymentUrl, URLParser.parseQuery, hurl]
    rw [URLParser.get_foldl_mergeParam "type" Proto.get_type, htype]
    exact orNull_single t ht
  have hpid : (PaymentService.parsePaymentUrl newURL url).id = .str i := by
    simp only [PaymentService.parsePaymentUrl, URLParser.parseQuery, hurl]
    rw [URLParser.get_foldl_mergeParam "id" Proto.get_id, hid]
    exact orNull_single i hi
  have hsuccess : (PaymentService.parsePaymentUrl newURL url).success = true := rfl
  have hvalid : PaymentService.validatePaymentParams
      (PaymentService.parsePaymentUrl newURL url).toPaymentParams = true := by
    simp [PaymentService.validatePaymentParams, hptype, hpid, PaymentService.isNonBlankString,
      ht, hi]
  have hrun : PaymentService.processPaymentFromUrl newURL fetch now url options
      = PaymentService.sendPaymentRequest fetch now
          { orderId := .str i, paymentMethodType := .str t,
            resourceType :=
              if options.resourceType = .undefined then .str "android"
              else options.resourceType } options := by
    simp only [PaymentService.processPaymentFromUrl, hsuccess, hvalid, hptype, hpid,
      PaymentService.buildPaymentData]
    rfl
  refine ⟨hrun, ?_, ?_⟩
  · rw [hrun]
    rfl
  · rw [hrun]
    simp only [PaymentService.sendPaymentRequest]
    cases fetch PAYMENT_CONFIG.API_URL (PaymentService.requestOptions
        { orderId := .str i, paymentMethodType := .str t,
          resourceType :=
            if options.resourceType = .undefined then .str "android"
            else options.resourceType } options) with
    | error e => rfl
    | ok response =>
      cases hj : response.json with
      | error e => simp [bind, Except.bind, hj, Except.map, PaymentResult.step]
      | ok body => simp [bind, Except.bind, hj, Except.map, PaymentResult.step, pure, Except.pure]

/-- C7 at `https://h/p?type=wechat&id=ORDER_2` with a server that answers
`200 OK`. -/
theorem C7_valid_url_sends_one_request_witness :
    (PaymentService.processPaymentFromUrl
        (tableURL [("type=wechat&id=ORDER_2", [("type", "wechat"), ("id", "ORDER_2")])])
        (constFetch (.ok { status := 200, statusText := "OK", json := .ok { text := "{}" } }))
        "2024-01-01T00:00:00.000Z" "https://h/p?type=wechat&id=ORDER_2" {}).requests.map
        (fun r => (r.1, r.2.method, r.2.body))
      = [("https://eotoai-app.caideai.com/app/pay/elepay", "POST",
          { orderId := .str "ORDER_2", paymentMethodType := .str "wechat",
            resourceType := .str "android" })] :=
  (C7_valid_url_sends_one_request
    (tableURL [("type=wechat&id=ORDER_2", [("type", "wechat"), ("id", "ORDER_2")])])
    (constFetch (.ok { status := 200, statusText := "OK", json := .ok { text := "{}" } }))
    "2024-01-01T00:00:00.000Z" "https://h/p?type=wechat&id=ORDER_2" {}
    { href := "https://h/p?type=wechat&id=ORDER_2", protocol := "https:", host := "h",
      hostname := "h", port := "", pathname := "/p", search := "?type=wechat&id=ORDER_2",
      hash := "", origin := "https://h",
      searchParams := [("type", "wechat"), ("id", "ORDER_2")] }
    "wechat" "ORDER_2" rfl (by decide) (by decide) (by decide) (by decide)).2.1

/-! ## `sendPaymentRequest` -/

/-- The outcome of `sendPaymentRequest` when `fetch` throws. -/
theorem PaymentService.sendPaymentRequest_throw (fetch : Fetch) (now : String)
    (paymentData : PaymentData) (options : Options) (e : JSError)
    (hfetch : fetch PAYMENT_CONFIG.API_URL (PaymentService.requestOptions paymentData options)
      = .error e) :
    (PaymentService.sendPaymentRequest fetch now paymentData options).outcome
      = .ok (.requestFailed e.message e.name paymentData now) := by
  simp [PaymentService.sendPaymentRequest, hfetch, bind, Except.bind]

/-- The outcome of `sendPaymentRequest` when the body does not decode. -/
theorem PaymentService.sendPaymentRequest_undecodable (fetch : Fetch) (now : String)
    (paymentData : PaymentData) (options : Options) (response : Response) (e : JSError)
    (hfetch : fetch PAYMENT_CONFIG.API_URL (PaymentService.requestOptions paymentData options)
      = .ok response)
    (hjson : response.json = .error e) :
    (PaymentService.sendPaymentRequest fetch now paymentData options).outcome
      = .ok (.requestFailed e.message e.name paymentData now) := by
  simp [PaymentService.sendPaymentRequest, hfetch, hjson, bind, Except.bind]

/-- The outcome of `sendPaymentRequest` when the body decodes. -/
theorem PaymentService.sendPaymentRequest_decoded (fetch : Fetch) (now : String)
    (paymentData : PaymentData) (options : Options) (response : Response) (body : JsonValue)
    (hfetch : fetch PAYMENT_CONFIG.API_URL (PaymentService.requestOptions paymentData options)
      = .ok response)
    (hjson : response.json = .ok body) :
    (PaymentService.sendPaymentRequest fetch now paymentData options).outcome
      = .ok (.response response.ok response.status response.statusText body paymentData
          now) := by
  simp [PaymentService.sendPaymentRequest, hfetch, hjson, bind, Except.bind, pure, Except.pure]

/-- C8 as stated fails: the network call returns a `200 OK` response whose body
is not JSON; `response.ok` is `true`, and `sendPaymentRequest` resolves to a
failure result with `success: false` and no `status`. -/
theorem C8_counterexample :
    (undecodableResponse 200 "OK").ok = true ∧
    (PaymentService.sendPaymentRequest (constFetch (.ok (undecodableResponse 200 "OK")))
        "2024-01-01T00:00:00.000Z" examplePayment {}).outcome.map
        (fun r => (r.success, r.status, r.errorType))
      = .ok (false, none, some "SyntaxError") := by
  exact ⟨by decide, rfl⟩

/-- C8 as amended: for every payload and every network call that returns a
response whose body decodes as JSON, `sendPaymentRequest` resolves to the result
with `success = response.ok`, `status = response.status`,
`statusText = response.statusText`, `data` the decoded body and `requestData`
the original payload. -/
theorem C8_decoded_response_is_reported (fetch : Fetch) (now : String)
    (paymentData : PaymentData) (options : Options) (response : Response) (body : JsonValue)
    (hfetch : fetch PAYMENT_CONFIG.API_URL (PaymentService.requestOptions paymentData options)
      = .ok response)
    (hjson : response.json = .ok body) :
    ∃ result, (PaymentService.sendPaymentRequest fetch now paymentData options).outcome
        = .ok result ∧
      result.success = response.ok ∧
      result.status = some response.status ∧
      result.statusText = some response.statusText ∧
      result.data = some body ∧
      result.requestData = some paymentData ∧
      result.error = none ∧
      result.step = none :=
  ⟨_, PaymentService.sendPaymentRequest_decoded fetch now paymentData options response body
    hfetch hjson, rfl, rfl, rfl, rfl, rfl, rfl, rfl⟩

/-- C8 as amended, at a `201 Created` response with the JSON body `null`. -/
theorem C8_decoded_response_is_reported_witness :
    ∃ result, (PaymentService.sendPaymentRequest
        (constFetch (.ok (jsonResponse 201 "Created" "null")))
        "2024-01-01T00:00:00.000Z" examplePayment {}).outcome = .ok result ∧
      result.success = true ∧
      result.status = some 201 ∧
      result.statusText = some "Created" ∧
      result.data = some { text := "null" } ∧
      result.requestData = some examplePayment ∧
      result.error = none ∧
      result.step = none :=
  C8_decoded_response_is_reported (constFetch (.ok (jsonResponse 201 "Created" "null")))
    "2024-01-01T00:00:00.000Z" examplePayment {} (jsonResponse 201 "Created" "null")
    { text := "null" } rfl rfl

/-- C9 as stated fails: on a `500` response with a decodable body,
`sendPaymentRequest` resolves to a result with `success: false` that carries
the status and the body, and neither `error` nor `errorType`. -/
theorem C9_counterexample :
    (PaymentService.sendPaymentRequest
        (constFetch (.ok (jsonResponse 500 "Internal Server Error" "null")))
        "2024-01-01T00:00:00.000Z" examplePayment {}).outcome.map
        (fun r => (r.success, r.status, r.error, r.errorType))
      = .ok (false, some 500, none, none) := by
  rfl

/-- C9 as amended: for every payload, `sendPaymentRequest` resolves and never
rejects, with `requestData` the original payload.  When the network call throws
(cancellation included) or the response body fails to decode as JSON, the result
has `success: false` and carries the error's message as `error` and its name as
`errorType`.  When the response is non-2xx and its body decodes, the result has
`success: false` and carries `status`, `statusText` and `data`, without
`error` or `errorType`. -/
theorem C9_transport_failure_is_reported (fetch : Fetch) (now : String)
    (paymentData : PaymentData) (options : Options) :
    (∃ result, (PaymentService.sendPaymentRequest fetch now paymentData options).outcome
        = .ok result ∧ result.requestData = some paymentData) ∧
    (∀ e, fetch PAYMENT_CONFIG.API_URL (PaymentService.requestOptions paymentData options)
        = .error e →
      (PaymentService.sendPaymentRequest fetch now paymentData options).outcome
        = .ok (.requestFailed e.message e.name paymentData now)) ∧
    (∀ response e,
      fetch PAYMENT_CONFIG.API_URL (PaymentService.requestOptions paymentData options)
        = .ok response →
      response.json = .error e →
      (PaymentService.sendPaymentRequest fetch now paymentData options).outcome
        = .ok (.requestFailed e.message e.name paymentData now)) ∧
    (∀ response body,
      fetch PAYMENT_CONFIG.API_URL (PaymentService.requestOptions paymentData options)
        = .ok response →
      response.json = .ok body →
      ¬ (200 ≤ response.status ∧ response.status ≤ 299) →
      (PaymentService.sendPaymentRequest fetch now paymentData options).outcome
        = .ok (.response false response.status response.statusText body paymentData now)) := by
  refine ⟨?_, ?_, ?_, ?_⟩
  · cases hfetch : fetch PAYMENT_CONFIG.API_URL
        (PaymentService.requestOptions paymentData options) with
    | error e =>
      exact ⟨_, PaymentService.sendPaymentRequest_throw fetch now paymentData options e hfetch,
        rfl⟩
    | ok response =>
      cases hjson : response.json with
      | error e =>
        exact ⟨_, PaymentService.sendPaymentRequest_undecodable fetch now paymentData options
          response e hfetch hjson, rfl⟩
      | ok body =>
        exact ⟨_, PaymentService.sendPaymentRequest_decoded fetch now paymentData options
          response body hfetch hjson, rfl⟩
  · intro e hfetch
    exact PaymentService.sendPaymentRequest_throw fetch now paymentData options e hfetch
  · intro response e hfetch hjson
    exact PaymentService.sendPaymentRequest_undecodable fetch now paymentData options
      response e hfetch hjson
  · intro response body hfetch hjson hstatus
    rw [PaymentService.sendPaymentRequest_decoded fetch now paymentData options response body
      hfetch hjson]
    have hok : response.ok = false := by
      simp only [Response.ok, decide_eq_false_iff_not]
      exact hstatus
    rw [hok]

/-- C9 as amended, at an aborted request, at a `200` response with an
undecodable body and at a `404` response. -/
theorem C9_transport_failure_is_reported_witness :
    (PaymentService.sendPaymentRequest (constFetch (.error abortError))
        "2024-01-01T00:00:00.000Z" examplePayment {}).outcome
      = .ok (.requestFailed "The operation was aborted." "AbortError" examplePayment
          "2024-01-01T00:00:00.000Z") ∧
    (PaymentService.sendPaymentRequest (constFetch (.ok (undecodableResponse 200 "OK")))
        "2024-01-01T00:00:00.000Z" examplePayment {}).outcome
      = .ok (.requestFailed "Unexpected end of JSON input" "SyntaxError" examplePayment
          "2024-01-01T00:00:00.000Z") ∧
    (PaymentService.sendPaymentRequest
        (constFetch (.ok (jsonResponse 404 "Not Found" "null")))
        "2024-01-01T00:00:00.000Z" examplePayment {}).outcome
      = .ok (.response false 404 "Not Found" { text := "null" } examplePayment
          "2024-01-01T00:00:00.000Z") :=
  ⟨(C9_transport_failure_is_reported (constFetch (.error abortError))
      "2024-01-01T00:00:00.000Z" examplePayment {}).2.1 abortError rfl,
   (C9_transport_failure_is_reported (constFetch (.ok (undecodableResponse 200 "OK")))
      "2024-01-01T00:00:00.000Z" examplePayment {}).2.2.1
      (undecodableResponse 200 "OK") jsonSyntaxError rfl rfl,
   (C9_transport_failure_is_reported (constFetch (.ok (jsonResponse 404 "Not Found" "null")))
      "2024-01-01T00:00:00.000Z" examplePayment {}).2.2.2
      (jsonResponse 404 "Not Found" "null") { text := "null" } rfl rfl (by decide)⟩

/-! ## `parsePaymentUrl` -/

/-- The expression `v || null` is `null` exactly when `v` is falsy. -/
theorem orNull_eq_null_iff (v : Value) : orNull v = .null ↔ v.truthy = false := by
  unfold orNull
  cases h : v.truthy with
  | false => simp
  | true =>
    simp only [if_true, Bool.true_eq_false, iff_false]
    rintro rfl
    simp [Value.truthy] at h

/-- C10 as stated fails: the URL `https://h/p?type=&id=ORDER_1` has a `type`
parameter, with the empty value, and `parsePaymentUrl` returns `type: null`. -/
theorem C10_counterexample :
    URLParser.getQueryParams (tableURL [("type=&id=ORDER_1", [("type", ""), ("id", "ORDER_1")])])
        "type" "https://h/p?type=&id=ORDER_1" = [""] ∧
    (PaymentService.parsePaymentUrl
        (tableURL [("type=&id=ORDER_1", [("type", ""), ("id", "ORDER_1")])])
        "https://h/p?type=&id=ORDER_1").type = .null := by
  decide

/-- C10 as amended: for every valid URL, `parsePaymentUrl(url)` returns
`success: true` and `originalParams` the result of `parseQuery(url)`; `type` is
the merged value of the URL's `type` parameter when that value is truthy and
`null` otherwise, so that `type` is the string `t` when the parameter occurs
once with the non-empty value `t`, and `type` is `null` exactly when the URL has
no `type` parameter with a non-empty value; the same holds of `id`. -/
theorem C10_parsePaymentUrl (newURL : URLConstructor) (url : String) (urlObj : URL)
    (hurl : newURL url = .ok urlObj) :
    (PaymentService.parsePaymentUrl newURL url).success = true ∧
    (PaymentService.parsePaymentUrl newURL url).originalParams
      = some (URLParser.parseQuery newURL url) ∧
    (PaymentService.parsePaymentUrl newURL url).type
      = orNull (((valuesOf "type" urlObj.searchParams).foldl mergeStep none).getD .undefined) ∧
    (PaymentService.parsePaymentUrl newURL url).id
      = orNull (((valuesOf "id" urlObj.searchParams).foldl mergeStep none).getD .undefined) ∧
    (∀ t, valuesOf "type" urlObj.searchParams = [t] → t ≠ "" →
      (PaymentService.parsePaymentUrl newURL url).type = .str t) ∧
    (∀ i, valuesOf "id" urlObj.searchParams = [i] → i ≠ "" →
      (PaymentService.parsePaymentUrl newURL url).id = .str i) ∧
    ((PaymentService.parsePaymentUrl newURL url).type = .null ↔
      ∀ v ∈ valuesOf "type" urlObj.searchParams, v = "") ∧
    ((PaymentService.parsePaymentUrl newURL url).id = .null ↔
      ∀ v ∈ valuesOf "id" urlObj.searchParams, v = "") := by
  have htype : (PaymentService.parsePaymentUrl newURL url).type
      = orNull (((valuesOf "type" urlObj.searchParams).foldl mergeStep none).getD
          .undefined) := by
    simp only [PaymentService.parsePaymentUrl, URLParser.parseQuery, hurl]
    rw [URLParser.get_foldl_mergeParam "type" Proto.get_type]
  have hid : (PaymentService.parsePaymentUrl newURL url).id
      = orNull (((valuesOf "id" urlObj.searchParams).foldl mergeStep none).getD
          .undefined) := by
    simp only [PaymentService.parsePaymentUrl, URLParser.parseQuery, hurl]
    rw [URLParser.get_foldl_mergeParam "id" Proto.get_id]
  have hsingle : ∀ t : String, t ≠ "" →
      orNull (([t].foldl mergeStep none).getD .undefined) = .str t := by
    intro t ht
    simp [mergeStep, orNull, Value.truthy, Atom.truthy, ht]
  refine ⟨rfl, rfl, htype, hid, ?_, ?_, ?_, ?_⟩
  · intro t hv ht
    rw [htype, hv]
    exact hsingle t ht
  · intro i hv hi
    rw [hid, hv]
    exact hsingle i hi
  · rw [htype, orNull_eq_null_iff]
    exact (foldl_mergeStep_truthy _ none (Or.inl rfl)).symm
  · rw [hid, orNull_eq_null_iff]
    exact (foldl_mergeStep_truthy _ none (Or.inl rfl)).symm

/-- C10 as amended, at `https://h/p?type=alipay&id=ORDER_1`: the result is
`{type:'alipay', id:'ORDER_1', success:true,
originalParams:{type:'alipay', id:'ORDER_1'}}`. -/
theorem C10_parsePaymentUrl_witness :
    (PaymentService.parsePaymentUrl
        (tableURL [("type=alipay&id=ORDER_1", [("type", "alipay"), ("id", "ORDER_1")])])
        "https://h/p?type=alipay&id=ORDER_1").type = .str "alipay" ∧
    (PaymentService.parsePaymentUrl
        (tableURL [("type=alipay&id=ORDER_1", [("type", "alipay"), ("id", "ORDER_1")])])
        "https://h/p?type=alipay&id=ORDER_1").id = .str "ORDER_1" ∧
    (PaymentService.parsePaymentUrl
        (tableURL [("type=alipay&id=ORDER_1", [("type", "alipay"), ("id", "ORDER_1")])])
        "https://h/p?type=alipay&id=ORDER_1").success = true ∧
    (PaymentService.parsePaymentUrl
        (tableURL [("type=alipay&id=ORDER_1", [("type", "alipay"), ("id", "ORDER_1")])])
        "https://h/p?type=alipay&id=ORDER_1").originalParams
      = some { own := [("type", .str "alipay"), ("id", .str "ORDER_1")], proto := .object } :=
  have h := C10_parsePaymentUrl
    (tableURL [("type=alipay&id=ORDER_1", [("type", "alipay"), ("id", "ORDER_1")])])
    "https://h/p?type=alipay&id=ORDER_1"
    { href := "https://h/p?type=alipay&id=ORDER_1", protocol := "https:", host := "h",
      hostname := "h", port := "", pathname := "/p", search := "?type=alipay&id=ORDER_1",
      hash := "", origin := "https://h",
      searchParams := [("type", "alipay"), ("id", "ORDER_1")] }
    rfl
  ⟨h.2.2.2.2.1 "alipay" (by decide) (by decide), h.2.2.2.2.2.1 "ORDER_1" (by decide) (by decide),
    h.1, h.2.1.trans (by decide)⟩

/-! ## Strings that are not URLs -/

/-- C11: for every string that `new URL` rejects, the parsing operations return
their sentinels from the `catch` block: `parseQuery` and `parseHash` the empty
object `{}`, `getQueryParam` `null` for every key, `getQueryParams` the empty
array for every key, and `parseURL` `null`. -/
theorem C11_invalid_url_sentinels (newURL : URLConstructor)
    (parseSearch : URLParser.SearchParser) (url : String) (e : JSError)
    (hurl : newURL url = .error e) :
    URLParser.parseQuery newURL url = Obj.empty ∧
    URLParser.parseHash newURL parseSearch url = Obj.empty ∧
    (∀ key, URLParser.getQueryParam newURL key url = .null) ∧
    (∀ key, URLParser.getQueryParams newURL key url = []) ∧
    URLParser.parseURL newURL parseSearch url = none := by
  refine ⟨?_, ?_, ?_, ?_, ?_⟩
  · simp [URLParser.parseQuery, hurl]
  · simp [URLParser.parseHash, hurl]
  · intro key
    simp [URLParser.getQueryParam, hurl]
  · intro key
    simp [URLParser.getQueryParams, hurl]
  · simp [URLParser.parseURL, hurl]

/-- C11 at the string `not a url`. -/
theorem C11_invalid_url_sentinels_witness :
    URLParser.parseQuery (tableURL []) "not a url" = { own := [], proto := .object } ∧
    URLParser.parseHash (tableURL []) (fun _ => []) "not a url"
      = { own := [], proto := .object } ∧
    URLParser.getQueryParam (tableURL []) "type" "not a url" = .null ∧
    URLParser.getQueryParams (tableURL []) "type" "not a url" = [] ∧
    URLParser.parseURL (tableURL []) (fun _ => []) "not a url" = none :=
  have h := C11_invalid_url_sentinels (tableURL []) (fun _ => []) "not a url"
    { name := "TypeError", message := "Invalid URL" } rfl
  ⟨h.1, h.2.1, h.2.2.1 "type", h.2.2.2.1 "type", h.2.2.2.2⟩

/-! ## `removeQuery` -/

/-- The pairs left after the deletion of a list of keys. -/
theorem URLParser.foldl_deleteParam (keys : List String) (url : URL) :
    (keys.foldl URLParser.deleteParam url).searchParams
      = url.searchParams.filter (fun p => decide (p.1 ∉ keys)) := by
  induction keys generalizing url with
  | nil => simp
  | cons k rest ih =>
    rw [List.foldl_cons, ih]
    simp only [URLParser.deleteParam, List.filter_filter]
    apply List.filter_congr
    intro p _
    simp only [List.mem_cons, not_or, Bool.decide_and, Bool.and_comm, ne_eq]

/-- A key that no pair carries is not an own key of the parsed object. -/
theorem URLParser.not_mem_keys_foldl_mergeParam (key : String)
    (pairs : List (String × String)) (h : ∀ p ∈ pairs, p.1 ≠ key) :
    key ∉ (pairs.foldl URLParser.mergeParam Obj.empty).own.keys := by
  intro hmem
  obtain ⟨v, hv⟩ := Props.get?_isSome_of_mem _ key hmem
  rw [URLParser.foldl_mergeParam_absent key pairs h] at hv
  simp [Obj.empty, Props.get?] at hv

/-- C12: let the platform parse the address that `removeQuery` hands to the
history API back into the pairs left after the deletions.  Then, for either
value of `replace`, `removeQuery` returns normally with that address as the new
current URL, by `replaceState` or by `pushState`, and the object `parseQuery`
builds from the new current URL has none of the given keys among its own keys,
whether or not they were present before: not the key `key` when the caller
passes the single key `key`, and no element of `ks` when the caller passes the
list `ks`. -/
theorem C12_removeQuery_then_parseQuery (newURL : URLConstructor) (urlToString : URL → String)
    (window : URLParser.Window) (keys : URLParser.Keys) (replace : Bool) (url after : URL)
    (hcur : newURL window.href = .ok url)
    (hnew : newURL (urlToString (keys.toArray.foldl URLParser.deleteParam url)) = .ok after)
    (hpairs : after.searchParams
      = (keys.toArray.foldl URLParser.deleteParam url).searchParams) :
    URLParser.removeQuery newURL urlToString window keys replace
      = .ok (if replace then
          window.replaceState (urlToString (keys.toArray.foldl URLParser.deleteParam url))
        else
          window.pushState (urlToString (keys.toArray.foldl URLParser.deleteParam url))) ∧
    ∀ window', URLParser.removeQuery newURL urlToString window keys replace = .ok window' →
      match keys with
      | .one key => key ∉ (URLParser.parseQuery newURL window'.href).own.keys
      | .many ks => ∀ key ∈ ks, key ∉ (URLParser.parseQuery newURL window'.href).own.keys := by
  have hrun : URLParser.removeQuery newURL urlToString window keys replace
      = .ok (if replace then
          window.replaceState (urlToString (keys.toArray.foldl URLParser.deleteParam url))
        else
          window.pushState (urlToString (keys.toArray.foldl URLParser.deleteParam url))) := by
    simp only [URLParser.removeQuery, hcur, bind, Except.bind, pure, Except.pure]
    cases replace <;> simp
  refine ⟨hrun, ?_⟩
  intro window' hw
  rw [hrun] at hw
  have hhref : window'.href
      = urlToString (keys.toArray.foldl URLParser.deleteParam url) := by
    injection hw with hw
    rw [← hw]
    cases replace <;> rfl
  have hgone : ∀ key ∈ keys.toArray,
      key ∉ (URLParser.parseQuery newURL window'.href).own.keys := by
    intro key hkey
    rw [hhref]
    simp only [URLParser.parseQuery, hnew, hpairs]
    apply URLParser.not_mem_keys_foldl_mergeParam
    intro p hp
    rw [URLParser.foldl_deleteParam] at hp
    have := (List.mem_filter.mp hp).2
    simp only [decide_eq_true_eq] at this
    intro hcontra
    exact this (hcontra ▸ hkey)
  cases keys with
  | one key => exact hgone key (by simp [URLParser.Keys.toArray])
  | many ks => exact fun key hkey => hgone key (by simpa [URLParser.Keys.toArray] using hkey)

/-- C12 at the document `https://h/p?a=1&b=2&c=3`: with the single key `'a'`
and `replace` set, and with the keys `['a', 'b']` and `replace` left `false`. -/
theorem C12_removeQuery_then_parseQuery_witness :
    (URLParser.removeQuery
        (tableURL [("a=1&b=2&c=3", [("a", "1"), ("b", "2"), ("c", "3")]),
          ("b=2&c=3", [("b", "2"), ("c", "3")])])
        (fun u => "https://h/p?"
          ++ tableSerializer [("b=2&c=3", [("b", "2"), ("c", "3")])] u.searchParams)
        { href := "https://h/p?a=1&b=2&c=3", back := ["https://h/"] } (.one "a") true
      = .ok { href := "https://h/p?b=2&c=3", back := ["https://h/"] } ∧
    "a" ∉ (URLParser.parseQuery
        (tableURL [("a=1&b=2&c=3", [("a", "1"), ("b", "2"), ("c", "3")]),
          ("b=2&c=3", [("b", "2"), ("c", "3")])])
        "https://h/p?b=2&c=3").own.keys) ∧
    (URLParser.removeQuery
        (tableURL [("a=1&b=2&c=3", [("a", "1"), ("b", "2"), ("c", "3")]), ("c=3", [("c", "3")])])
        (fun u => "https://h/p?" ++ tableSerializer [("c=3", [("c", "3")])] u.searchParams)
        { href := "https://h/p?a=1&b=2&c=3", back := [] } (.many ["a", "b"]) false
      = .ok { href := "https://h/p?c=3", back := ["https://h/p?a=1&b=2&c=3"] } ∧
    "a" ∉ (URLParser.parseQuery
        (tableURL [("a=1&b=2&c=3", [("a", "1"), ("b", "2"), ("c", "3")]), ("c=3", [("c", "3")])])
        "https://h/p?c=3").own.keys ∧
    "b" ∉ (URLParser.parseQuery
        (tableURL [("a=1&b=2&c=3", [("a", "1"), ("b", "2"), ("c", "3")]), ("c=3", [("c", "3")])])
        "https://h/p?c=3").own.keys) :=
  have h1 := C12_removeQuery_then_parseQuery
    (tableURL [("a=1&b=2&c=3", [("a", "1"), ("b", "2"), ("c", "3")]),
      ("b=2&c=3", [("b", "2"), ("c", "3")])])
    (fun u => "https://h/p?"
      ++ tableSerializer [("b=2&c=3", [("b", "2"), ("c", "3")])] u.searchParams)
    { href := "https://h/p?a=1&b=2&c=3", back := ["https://h/"] } (.one "a") true
    { href := "https://h/p?a=1&b=2&c=3", protocol := "https:", host := "h", hostname := "h",
      port := "", pathname := "/p", search := "?a=1&b=2&c=3", hash := "",
      origin := "https://h", searchParams := [("a", "1"), ("b", "2"), ("c", "3")] }
    { href := "https://h/p?b=2&c=3", protocol := "https:", host := "h", hostname := "h",
      port := "", pathname := "/p", search := "?b=2&c=3", hash := "",
      origin := "https://h", searchParams := [("b", "2"), ("c", "3")] }
    rfl rfl (by decide)
  have h2 := C12_removeQuery_then_parseQuery
    (tableURL [("a=1&b=2&c=3", [("a", "1"), ("b", "2"), ("c", "3")]), ("c=3", [("c", "3")])])
    (fun u => "https://h/p?" ++ tableSerializer [("c=3", [("c", "3")])] u.searchParams)
    { href := "https://h/p?a=1&b=2&c=3", back := [] } (.many ["a", "b"]) false
    { href := "https://h/p?a=1&b=2&c=3", protocol := "https:", host := "h", hostname := "h",
      port := "", pathname := "/p", search := "?a=1&b=2&c=3", hash := "",
      origin := "https://h", searchParams := [("a", "1"), ("b", "2"), ("c", "3")] }
    { href := "https://h/p?c=3", protocol := "https:", host := "h", hostname := "h",
      port := "", pathname := "/p", search := "?c=3", hash := "",
      origin := "https://h", searchParams := [("c", "3")] }
    rfl rfl (by decide)
  ⟨⟨h1.1, h1.2 { href := "https://h/p?b=2&c=3", back := ["https://h/"] } rfl⟩,
    ⟨h2.1, h2.2 { href := "https://h/p?c=3", back := ["https://h/p?a=1&b=2&c=3"] } rfl "a"
        (by decide),
      h2.2 { href := "https://h/p?c=3", back := ["https://h/p?a=1&b=2&c=3"] } rfl "b"
        (by decide)⟩⟩

end PaymentApp
